import Mathlib

set_option autoImplicit false

/-!
Verification of the `when!` clause-chain expansion (crate `kiam`,
`src/lib.rs`).  The macro rewrites a list of guarded clauses

    $( $(let $pat:pat = )? $cond:expr => $branch:expr ),+
    $(, _ => $def_branch:expr)? $(,)?

into the right-nested conditional chain

    $( if $(let $pat = )? $cond { $branch } else )+ { $( $def_branch )? }

Host expressions are embedded shallowly as state transformers, so that
evaluation order and evaluation counts are visible in the threaded state.
-/

namespace Kiam

/-- A host-language expression with possible side effects: evaluating it in a
state yields a value and a successor state. -/
abbrev Eff (σ α : Type) := σ → α × σ

/-- The empty block `{ }` the macro emits when no `_ => def_branch` clause is
given: it yields the unit value and touches nothing. -/
def unitEff (σ : Type) : Eff σ Unit := fun s => ((), s)

/-- One `guard => body` clause of a `when!` invocation.  A `boolean` clause is
`$cond:expr => $branch:expr`; a `destructure` clause is
`let $pat:pat = $cond:expr => $branch:expr`, whose pattern is embedded as a
partial extractor `pat : α → Option β` of the bound values, and whose body
receives those bindings (so the bindings are in scope only there). -/
inductive Clause (σ V : Type) : Type 1 where
  | boolean (cond : Eff σ Bool) (body : Eff σ V)
  | destructure (α β : Type) (target : Eff σ α) (pat : α → Option β)
      (body : β → Eff σ V)

/-- Expansion step for one clause: `if $(let $pat = )? $cond { $branch } else`
wrapped around the already-expanded rest of the chain `els`. -/
def Clause.test {σ V : Type} : Clause σ V → Eff σ V → Eff σ V
  | .boolean cond body, els => fun s =>
      let r := cond s
      if r.1 then body r.2 else els r.2
  | .destructure _ _ target pat body, els => fun s =>
      let r := target s
      match pat r.1 with
      | some b => body b r.2
      | none => els r.2

/-- The expanded chain of `when!`: the macro's `$( if ... else )+ { default }`
repetition is a right fold of `Clause.test` with the default (or unit) block
innermost, so clause 1 becomes the outermost test. -/
def whenElse {σ V : Type} (cs : List (Clause σ V)) (dflt : Eff σ V) : Eff σ V :=
  List.foldr Clause.test dflt cs

/-- The expanded chain when the `_ =>` default clause is absent: the trailing
block is empty, so the chain has unit type. -/
def whenStmt {σ : Type} (cs : List (Clause σ Unit)) : Eff σ Unit :=
  whenElse cs (unitEff σ)

/-- Whether a clause's guard succeeds at a given state: the boolean condition
evaluates to `true`, or the pattern matches the evaluated target. -/
def Clause.guardPasses {σ V : Type} : Clause σ V → σ → Bool
  | .boolean cond _, s => (cond s).1
  | .destructure _ _ target pat _, s => (pat (target s).1).isSome

/-- The state after evaluating a clause's guard expression once. -/
def Clause.guardState {σ V : Type} : Clause σ V → σ → σ
  | .boolean cond _, s => (cond s).2
  | .destructure _ _ target _ _, s => (target s).2

/-- Evaluate a clause's guard once; on success also evaluate the body (with
the pattern's bindings for a destructure guard) and return its result. -/
def Clause.tryStep {σ V : Type} : Clause σ V → σ → Option (V × σ)
  | .boolean cond body, s =>
      let r := cond s
      if r.1 then some (body r.2) else none
  | .destructure _ _ target pat body, s =>
      let r := target s
      match pat r.1 with
      | some b => some (body b r.2)
      | none => none

/-- All guards of the list fail when evaluated left to right, each one in the
state left by its predecessors. -/
def allFail {σ V : Type} : List (Clause σ V) → σ → Bool
  | [], _ => true
  | c :: cs, s => !(c.guardPasses s) && allFail cs (c.guardState s)

/-- The state after evaluating every guard of the list exactly once, in
textual order, evaluating no body. -/
def runGuards {σ V : Type} : List (Clause σ V) → σ → σ
  | [], s => s
  | c :: cs, s => runGuards cs (c.guardState s)

/-- Reference semantics written from the specification's words (section 4.2):
for clause 1..N in original order, a boolean guard evaluates its expression
and on `true` evaluates and yields the body, else proceeds to the next
clause; a destructure guard evaluates its target exactly once, on a match
binds the pattern's variables and yields the body evaluated with those
bindings, else proceeds with no bindings leaking; when no guard succeeded the
default body (or the unit fallback) is evaluated and yielded. -/
def referenceSemantics {σ V : Type} : List (Clause σ V) → Eff σ V → Eff σ V
  | [], dflt => fun s => dflt s
  | .boolean cond body :: rest, dflt => fun s =>
      let r := cond s
      if r.1 = true then body r.2 else referenceSemantics rest dflt r.2
  | .destructure _ _ target pat body :: rest, dflt => fun s =>
      let r := target s
      match pat r.1 with
      | some b => body b r.2
      | none => referenceSemantics rest dflt r.2

/-! ### Token-level model of the macro matcher

The `macro_rules` matcher of `when!` sees a comma-separated token sequence:
one or more non-default clauses, an optional `_ => def_branch` clause that
must come last (`_` is not an expression, so it cannot match `$cond:expr`),
and an optional trailing comma. -/

/-- One token-tree group of the invocation as the matcher distinguishes them:
a comma separator, a non-default clause, or the default clause `_ => body`. -/
inductive Tok (σ V : Type) : Type 1 where
  | comma
  | clause (c : Clause σ V)
  | defaultArm (d : Eff σ V)

/-- The ordered clause list recognised by the matcher: at least one
non-default clause, and the optional default body. -/
structure Parsed (σ V : Type) : Type 1 where
  clauses : List (Clause σ V)
  dflt : Option (Eff σ V)

/-- Matcher for the tokens after the leading clause:
`("," clause)* ("," "_" "=>" body)? (",")?`.  Anything else — a doubled
comma, a clause after the default arm, a second default arm — fails. -/
def parseTail {σ V : Type} :
    List (Tok σ V) → Option (List (Clause σ V) × Option (Eff σ V))
  | [] => some ([], none)
  | [.comma] => some ([], none)
  | .comma :: .defaultArm d :: rest =>
      match rest with
      | [] => some ([], some d)
      | [.comma] => some ([], some d)
      | _ => none
  | .comma :: .clause c :: rest =>
      (parseTail rest).map fun p => (c :: p.1, p.2)
  | _ => none

/-- The whole matcher: a leading non-default clause followed by the tail.
An empty invocation, or one starting with a comma or with the default arm,
is rejected (`$(...)+ ` needs at least one clause and `_` is no `expr`). -/
def parseToks {σ V : Type} : List (Tok σ V) → Option (Parsed σ V)
  | .clause c :: rest => (parseTail rest).map fun p => ⟨c :: p.1, p.2⟩
  | _ => none

/-- The complete macro: match the grammar, then emit the chain.  Every
emission path factors through `parseToks`, so `none` models a `SyntaxError`
with nothing emitted.  When the default arm is absent the emitted trailing
block is empty, so the chain's value type is `Unit` (this signature); using
such a chain where another type is required is the delegated `TypingError`
of the host's own type checker, downstream of the expansion. -/
def whenExpandStmt {σ : Type} (toks : List (Tok σ Unit)) :
    Option (Eff σ Unit) :=
  (parseToks toks).map fun p => whenElse p.clauses (p.dflt.getD (unitEff σ))

/-- The tokens closing an invocation: the optional `_ => body` default arm
(preceded by its separator comma) and the optional trailing comma. -/
def renderDflt {σ V : Type} : Option (Eff σ V) → Bool → List (Tok σ V)
  | none, false => []
  | none, true => [.comma]
  | some d, false => [.comma, .defaultArm d]
  | some d, true => [.comma, .defaultArm d, .comma]

/-- The tokens after the leading clause: each further clause preceded by its
separator comma, then the closing tokens. -/
def renderTail {σ V : Type} : List (Clause σ V) → Option (Eff σ V) → Bool →
    List (Tok σ V)
  | [], d, t => renderDflt d t
  | c :: cs, d, t => .comma :: .clause c :: renderTail cs d t

/-- Render a clause list (plus optional default arm and optional trailing
comma) as the comma-separated token sequence a caller would write. -/
def render {σ V : Type} : List (Clause σ V) → Option (Eff σ V) → Bool →
    List (Tok σ V)
  | [], d, t => renderDflt d t
  | c :: cs, d, t => .clause c :: renderTail cs d t

/-- Whether a token is the default arm `_ => body`. -/
def Tok.isDefaultArm {σ V : Type} : Tok σ V → Bool
  | .defaultArm _ => true
  | _ => false

/-- Whether a token is a non-default clause. -/
def Tok.isClause {σ V : Type} : Tok σ V → Bool
  | .clause _ => true
  | _ => false

/-- Whether some default arm token is NOT in the last clause position: it is
followed, beyond separator commas, by a further clause or default arm. -/
def defaultNotLast {σ V : Type} : List (Tok σ V) → Bool
  | [] => false
  | .defaultArm _ :: rest =>
      rest.any (fun t => t.isClause || t.isDefaultArm) || defaultNotLast rest
  | _ :: rest => defaultNotLast rest

/-! ### Evaluation-count instrumentation

To speak about how often a guard expression is evaluated, each clause's
guard is wrapped to bump a per-clause counter carried next to the base
state; bodies and the default are lifted untouched. -/

/-- Bump counter `i`. -/
def tick (i : Nat) (f : Nat → Nat) : Nat → Nat :=
  fun n => if n = i then f n + 1 else f n

/-- Lift an effect to the counter-carrying state without touching any
counter. -/
def liftEff {σ α : Type} (e : Eff σ α) : Eff (σ × (Nat → Nat)) α :=
  fun p => let r := e p.1; (r.1, (r.2, p.2))

/-- Instrument one clause: its guard expression (boolean condition or
destructure target) additionally bumps counter `i`; its body is lifted
untouched. -/
def instrClause {σ V : Type} (i : Nat) : Clause σ V → Clause (σ × (Nat → Nat)) V
  | .boolean cond body =>
      .boolean (fun p => let r := cond p.1; (r.1, (r.2, tick i p.2)))
        (liftEff body)
  | .destructure α β target pat body =>
      .destructure α β (fun p => let r := target p.1; (r.1, (r.2, tick i p.2)))
        pat (fun b => liftEff (body b))

/-- Instrument a clause list, clause `k` getting counter `k`, `k+1` the
next, and so on. -/
def instrumentFrom {σ V : Type} : Nat → List (Clause σ V) →
    List (Clause (σ × (Nat → Nat)) V)
  | _, [] => []
  | k, c :: cs => instrClause k c :: instrumentFrom (k + 1) cs

/-- Instrument a clause list, clause `i` (0-based) getting counter `i`. -/
def instrument {σ V : Type} (cs : List (Clause σ V)) :
    List (Clause (σ × (Nat → Nat)) V) :=
  instrumentFrom 0 cs

/-! ### Concrete clauses mirroring the crate's tests -/

/-- A boolean clause `g => v` with a constant guard and constant body, as in
the `it_works`, `mixed` and `no_def` tests. -/
def constClause {σ : Type} (g : Bool) (v : Nat) : Clause σ Nat :=
  .boolean (fun s => (g, s)) (fun s => (v, s))

/-- A destructure clause `let Some(y) = t => f y` over an `Option Nat`
target, as in the `pattern` and `mixed` tests: the pattern `Some(y)`
extracts the payload when present. -/
def someClause {σ : Type} (t : Option Nat) (f : Nat → Nat) : Clause σ Nat :=
  .destructure (Option Nat) Nat (fun s => (t, s)) (fun v => v)
    (fun b s => (f b, s))

/-- The clause list of the `mixed` test: `false => 0`,
`let Some(_) = None => 0`, `let Some(y) = Some(12) => y + 1`, `true => 1`
(the invocation adds the default `_ => 0`). -/
def mixedClauses : List (Clause Unit Nat) :=
  [constClause false 0, someClause none (fun _ => 0),
   someClause (some 12) (fun y => y + 1), constClause true 1]

/-- The guard-evaluation counters of the instrumented run of the `mixed`
test's clause list (all counters start at zero). -/
def mixedCounters : Nat → Nat :=
  (whenElse (instrument mixedClauses) (liftEff fun s => ((0 : Nat), s))
    (((), fun _ => 0))).2.2

/-! ### Helper lemmas -/

theorem whenElse_nil {σ V : Type} (dflt : Eff σ V) : whenElse [] dflt = dflt :=
  rfl

theorem whenElse_cons {σ V : Type} (c : Clause σ V) (cs : List (Clause σ V))
    (dflt : Eff σ V) : whenElse (c :: cs) dflt = c.test (whenElse cs dflt) :=
  rfl

/-- When the guard passes, the expansion step runs the guard then the body,
independently of the rest of the chain. -/
theorem Clause.tryStep_test {σ V : Type} (c : Clause σ V) (els : Eff σ V)
    (s : σ) (h : c.guardPasses s = true) :
    c.tryStep s = some (c.test els s) := by
  cases c with
  | boolean cond body =>
      simp only [Clause.guardPasses] at h
      simp [Clause.tryStep, Clause.test, h]
  | destructure α β target pat body =>
      cases hp : pat (target s).1 with
      | none => simp [Clause.guardPasses, hp] at h
      | some b => simp [Clause.tryStep, Clause.test, hp]

/-- When the guard fails, the expansion step evaluates the guard once and
falls through to the rest of the chain. -/
theorem Clause.test_fail {σ V : Type} (c : Clause σ V) (els : Eff σ V)
    (s : σ) (h : c.guardPasses s = false) :
    c.test els s = els (c.guardState s) := by
  cases c with
  | boolean cond body =>
      simp only [Clause.guardPasses] at h
      simp [Clause.test, Clause.guardState, h]
  | destructure α β target pat body =>
      cases hp : pat (target s).1 with
      | none => simp [Clause.test, Clause.guardState, hp]
      | some b => simp [Clause.guardPasses, hp] at h

/-- Splitting `allFail` at a cons cell. -/
theorem allFail_cons {σ V : Type} (c : Clause σ V) (cs : List (Clause σ V))
    (s : σ) (h : allFail (c :: cs) s = true) :
    c.guardPasses s = false ∧ allFail cs (c.guardState s) = true := by
  rw [allFail, Bool.and_eq_true, Bool.not_eq_true'] at h
  exact h

/-- When every guard fails, the chain evaluates each guard once in order and
then runs the innermost default block. -/
theorem whenElse_allFail {σ V : Type} (cs : List (Clause σ V))
    (dflt : Eff σ V) (s : σ) (h : allFail cs s = true) :
    whenElse cs dflt s = dflt (runGuards cs s) := by
  induction cs generalizing s with
  | nil => rfl
  | cons c cs ih =>
      obtain ⟨h1, h2⟩ := allFail_cons c cs s h
      rw [whenElse_cons, Clause.test_fail c _ s h1, runGuards]
      exact ih _ h2

/-- C7: the emitted chain is exactly the right fold of the per-clause
`if ... else` step over the clause sequence with the default body as the
innermost accumulator (clause 1 outermost), and this chain is observably
equivalent — same value, same final state, from every start state — to the
left-to-right reference semantics of section 4.2 of the specification. -/
theorem expand_refines_reference {σ V : Type} (cs : List (Clause σ V))
    (dflt : Eff σ V) :
    whenElse cs dflt = List.foldr Clause.test dflt cs ∧
    whenElse cs dflt = referenceSemantics cs dflt := by
  refine ⟨rfl, ?_⟩
  induction cs with
  | nil => rfl
  | cons c cs ih =>
      funext s
      cases c with
      | boolean cond body =>
          simp [whenElse_cons, Clause.test, referenceSemantics, ← ih]
      | destructure α β target pat body =>
          simp [whenElse_cons, Clause.test, referenceSemantics, ← ih]

/-- C1: first success wins.  When the guards of the clauses before clause
`k` all fail and clause `k`'s guard passes, the whole chain's outcome (value
and final state) equals the outcome of evaluating clause `k`'s guard and
body in the state the failing prefix left behind — the right-hand side is
`c.tryStep (runGuards pre s)`, which does not depend on the later clauses
`post` or on the default body, so none of their guards or bodies is
evaluated. -/
theorem first_success_wins {σ V : Type} (pre post : List (Clause σ V))
    (c : Clause σ V) (dflt : Eff σ V) (s : σ)
    (hfail : allFail pre s = true)
    (hpass : c.guardPasses (runGuards pre s) = true) :
    Clause.tryStep c (runGuards pre s) =
      some (whenElse (pre ++ c :: post) dflt s) := by
  induction pre generalizing s with
  | nil =>
      exact Clause.tryStep_test c (whenElse post dflt) s hpass
  | cons p pre ih =>
      obtain ⟨h1, h2⟩ := allFail_cons p pre s hfail
      have hstep : whenElse ((p :: pre) ++ c :: post) dflt s
          = whenElse (pre ++ c :: post) dflt (p.guardState s) := by
        rw [List.cons_append, whenElse_cons, Clause.test_fail p _ s h1]
      rw [hstep]
      exact ih (p.guardState s) h2 hpass

/-- Witness for C1 at the spec's concrete example: guards
`[false, false, true, true]` with bodies `[0, 1, 2, 3]` and default `42`.
The failing prefix is the first two clauses, the third clause wins, and the
chain yields `2`. -/
theorem first_success_wins_witness :
    Clause.tryStep (constClause true 2)
        (runGuards [constClause false 0, constClause false 1] ()) =
      some (whenElse [constClause false 0, constClause false 1,
              constClause true 2, constClause true 3]
            (fun s => (42, s)) ()) ∧
    (whenElse [constClause false 0, constClause false 1, constClause true 2,
        constClause true 3] (fun s => (42, s)) ()).1 = 2 :=
  ⟨first_success_wins [constClause false 0, constClause false 1]
      [constClause true 3] (constClause true 2) (fun s => (42, s)) ()
      rfl rfl, rfl⟩

/-! ### Instrumentation lemmas -/

theorem tick_self (k : Nat) (f : Nat → Nat) : tick k f k = f k + 1 := by
  simp [tick]

theorem tick_other (k : Nat) (f : Nat → Nat) (i : Nat) (h : i ≠ k) :
    tick k f i = f i := by
  simp [tick, h]

/-- One instrumented boolean clause step, computed. -/
theorem instr_test_boolean {σ V : Type} (k : Nat) (cond : Eff σ Bool)
    (body : Eff σ V) (els : Eff (σ × (Nat → Nat)) V) (s : σ) (f : Nat → Nat) :
    (instrClause k (.boolean cond body)).test els ((s, f)) =
      if (cond s).1 then liftEff body (((cond s).2, tick k f))
      else els (((cond s).2, tick k f)) := rfl

/-- One instrumented destructure clause step, computed. -/
theorem instr_test_destructure {σ V α β : Type} (k : Nat) (target : Eff σ α)
    (pat : α → Option β) (body : β → Eff σ V) (els : Eff (σ × (Nat → Nat)) V)
    (s : σ) (f : Nat → Nat) :
    (instrClause k (.destructure α β target pat body)).test els ((s, f)) =
      match pat (target s).1 with
      | some b => liftEff (body b) (((target s).2, tick k f))
      | none => els (((target s).2, tick k f)) := rfl

/-- Counters below the first instrumented index are untouched, and no
counter is bumped more than once over the whole run. -/
theorem instr_counter_bound {σ V : Type} (cs : List (Clause σ V)) (k : Nat)
    (dflt : Eff σ V) (s : σ) (f : Nat → Nat) (i : Nat) :
    (i < k →
      (whenElse (instrumentFrom k cs) (liftEff dflt) ((s, f))).2.2 i = f i) ∧
    (whenElse (instrumentFrom k cs) (liftEff dflt) ((s, f))).2.2 i ≤ f i + 1 := by
  induction cs generalizing k s f with
  | nil => exact ⟨fun _ => rfl, Nat.le_succ _⟩
  | cons c cs ih =>
      have hne : i < k → i ≠ k := by omega
      cases c with
      | boolean cond body =>
          rw [instrumentFrom, whenElse_cons, instr_test_boolean]
          by_cases hc : (cond s).1
          · rw [if_pos hc]
            constructor
            · intro hik
              simpa [liftEff] using tick_other k f i (hne hik)
            · simp only [liftEff]
              by_cases hik : i = k
              · subst hik; rw [tick_self]
              · rw [tick_other k f i hik]; exact Nat.le_succ _
          · rw [if_neg hc]
            obtain ⟨ihA, ihB⟩ := ih (k + 1) (cond s).2 (tick k f)
            constructor
            · intro hik
              rw [ihA (by omega), tick_other k f i (hne hik)]
            · by_cases hik : i = k
              · subst hik
                rw [ihA (by omega), tick_self]
              · calc _ ≤ tick k f i + 1 := ihB
                  _ = f i + 1 := by rw [tick_other k f i hik]
      | destructure α β target pat body =>
          rw [instrumentFrom, whenElse_cons, instr_test_destructure]
          cases hp : pat (target s).1 with
          | some b =>
              constructor
              · intro hik
                simpa [liftEff] using tick_other k f i (hne hik)
              · simp only [liftEff]
                by_cases hik : i = k
                · subst hik; rw [tick_self]
                · rw [tick_other k f i hik]; exact Nat.le_succ _
          | none =>
              obtain ⟨ihA, ihB⟩ := ih (k + 1) (target s).2 (tick k f)
              constructor
              · intro hik
                rw [ihA (by omega), tick_other k f i (hne hik)]
              · by_cases hik : i = k
                · subst hik
                  rw [ihA (by omega), tick_self]
                · calc _ ≤ tick k f i + 1 := ihB
                    _ = f i + 1 := by rw [tick_other k f i hik]

/-- When every guard fails, each instrumented clause bumps its own counter
exactly once and nothing else is bumped. -/
theorem instr_allFail_counter {σ V : Type} (cs : List (Clause σ V)) (k : Nat)
    (dflt : Eff σ V) (s : σ) (f : Nat → Nat) (i : Nat)
    (h : allFail cs s = true) :
    (whenElse (instrumentFrom k cs) (liftEff dflt) ((s, f))).2.2 i =
      if k ≤ i ∧ i < k + cs.length then f i + 1 else f i := by
  induction cs generalizing k s f with
  | nil =>
      rw [show (whenElse (instrumentFrom k []) (liftEff dflt)
            ((s, f))).2.2 i = f i from rfl,
        if_neg (by simp only [List.length_nil]; omega)]
  | cons c cs ih =>
      obtain ⟨h1, h2⟩ := allFail_cons c cs s h
      have key : ∀ (s1 : σ),
          allFail cs s1 = true →
          (whenElse (instrumentFrom (k + 1) cs) (liftEff dflt)
              ((s1, tick k f))).2.2 i =
            if k ≤ i ∧ i < k + (c :: cs).length then f i + 1 else f i := by
        intro s1 hs1
        rw [ih (k + 1) s1 (tick k f) hs1]
        by_cases hik : i = k
        · subst hik
          rw [if_neg (by omega), if_pos (by simp only [List.length_cons]; omega),
            tick_self]
        · rw [tick_other k f i hik]
          by_cases hr : k + 1 ≤ i ∧ i < k + 1 + cs.length
          · rw [if_pos hr, if_pos (by simp only [List.length_cons]; omega)]
          · rw [if_neg hr, if_neg (by simp only [List.length_cons]; omega)]
      cases c with
      | boolean cond body =>
          simp only [Clause.guardPasses] at h1
          rw [instrumentFrom, whenElse_cons, instr_test_boolean,
            if_neg (by simp [h1])]
          exact key (cond s).2 h2
      | destructure α β target pat body =>
          cases hp : pat (target s).1 with
          | some b => simp [Clause.guardPasses, hp] at h1
          | none =>
              rw [instrumentFrom, whenElse_cons, instr_test_destructure]
              simp only [hp]
              exact key (target s).2 h2

/-- When the guards of the first `i` clauses all fail, clause `i` is
reached, so its counter is bumped exactly once over the whole run. -/
theorem instr_reached_counter {σ V : Type} :
    ∀ (i : Nat) (cs : List (Clause σ V)) (k : Nat) (dflt : Eff σ V) (s : σ)
      (f : Nat → Nat), allFail (List.take i cs) s = true → i < cs.length →
      (whenElse (instrumentFrom k cs) (liftEff dflt) ((s, f))).2.2 (k + i) =
        f (k + i) + 1
  | _, [], _, _, _, _, _, hlen => by simp at hlen
  | 0, c :: cs, k, dflt, s, f, _, _ => by
      rw [Nat.add_zero]
      cases c with
      | boolean cond body =>
          rw [instrumentFrom, whenElse_cons, instr_test_boolean]
          by_cases hc : (cond s).1
          · rw [if_pos hc]
            simpa [liftEff] using tick_self k f
          · rw [if_neg hc]
            obtain ⟨hA, _⟩ :=
              instr_counter_bound cs (k + 1) dflt (cond s).2 (tick k f) k
            rw [hA (by omega), tick_self]
      | destructure α β target pat body =>
          rw [instrumentFrom, whenElse_cons, instr_test_destructure]
          cases hp : pat (target s).1 with
          | some b =>
              simp only [hp]
              simpa [liftEff] using tick_self k f
          | none =>
              simp only [hp]
              obtain ⟨hA, _⟩ :=
                instr_counter_bound cs (k + 1) dflt (target s).2 (tick k f) k
              rw [hA (by omega), tick_self]
  | i + 1, c :: cs, k, dflt, s, f, h, hlen => by
      rw [List.take_succ_cons] at h
      obtain ⟨h1, h2⟩ := allFail_cons c _ s h
      have hlen' : i < cs.length := by
        simp only [List.length_cons] at hlen; omega
      have hidx : k + (i + 1) = (k + 1) + i := by omega
      have htick : tick k f ((k + 1) + i) = f ((k + 1) + i) := by
        rw [tick_other]; omega
      cases c with
      | boolean cond body =>
          simp only [Clause.guardPasses] at h1
          rw [instrumentFrom, whenElse_cons, instr_test_boolean,
            if_neg (by simp [h1]), hidx,
            instr_reached_counter i cs (k + 1) dflt (cond s).2 (tick k f)
              h2 hlen', htick]
      | destructure α β target pat body =>
          cases hp : pat (target s).1 with
          | some b => simp [Clause.guardPasses, hp] at h1
          | none =>
              rw [instrumentFrom, whenElse_cons, instr_test_destructure]
              simp only [hp]
              rw [hidx,
                instr_reached_counter i cs (k + 1) dflt (target s).2
                  (tick k f) h2 hlen', htick]

/-- C2: single evaluation per guard.  With each clause's guard expression
(boolean condition or destructure target) instrumented to bump its own
counter, every run of the chain ends with every counter at most `1`
regardless of which clause succeeds and how many clauses follow, and the
counter of a clause that is reached (all earlier guards failed) ends at
exactly `1`. -/
theorem guard_single_evaluation {σ V : Type} (cs : List (Clause σ V))
    (dflt : Eff σ V) (s : σ) (i : Nat) :
    (whenElse (instrument cs) (liftEff dflt) ((s, fun _ => 0))).2.2 i ≤ 1 ∧
    (allFail (List.take i cs) s = true → i < cs.length →
      (whenElse (instrument cs) (liftEff dflt) ((s, fun _ => 0))).2.2 i = 1) := by
  constructor
  · exact (instr_counter_bound cs 0 dflt s (fun _ => 0) i).2
  · intro h1 h2
    have h3 := instr_reached_counter i cs 0 dflt s (fun _ => 0) h1 h2
    rwa [Nat.zero_add] at h3

/-- Witness for C2 on the `mixed` test's clause list: the winning third
clause (index 2) is reached, and its counting guard reports exactly one
evaluation. -/
theorem guard_single_evaluation_witness :
    (whenElse (instrument mixedClauses) (liftEff fun s => ((0 : Nat), s))
      (((), fun _ => 0))).2.2 2 = 1 :=
  (guard_single_evaluation mixedClauses (fun s => (0, s)) () 2).2 rfl
    (by decide)

/-- C10: when no guard succeeds, each of the `N` guards is evaluated exactly
once in textual order (the final state is the left-to-right fold of the
guard steps), no clause body runs, and the default-or-unit block is then
evaluated in the state those `N` guard evaluations produced.  The
instrumented run makes the counts exact: counter `i` ends at `1` for every
`i < N` (none skipped) and at `0` otherwise (nothing else evaluated). -/
theorem all_fail_guard_traversal {σ V : Type} (cs : List (Clause σ V))
    (dflt : Eff σ V) (s : σ) (h : allFail cs s = true) :
    whenElse cs dflt s = dflt (runGuards cs s) ∧
    (∀ i, (whenElse (instrument cs) (liftEff dflt) ((s, fun _ => 0))).2.2 i =
      if i < cs.length then 1 else 0) := by
  refine ⟨whenElse_allFail cs dflt s h, fun i => ?_⟩
  rw [show instrument cs = instrumentFrom 0 cs from rfl,
    instr_allFail_counter cs 0 dflt s (fun _ => 0) i h]
  by_cases hi : i < cs.length
  · rw [if_pos ⟨Nat.zero_le i, by omega⟩, if_pos hi]
  · rw [if_neg (by omega), if_neg hi]

/-- Witness for C10: two failing boolean clauses with default body `7`: the
chain yields `7`, and both guard counters end at `1`. -/
theorem all_fail_guard_traversal_witness :
    whenElse [constClause false 0, constClause false 5]
      (fun s => ((7 : Nat), s)) () = (7, ()) ∧
    (whenElse (instrument [constClause false 0, constClause false 5])
      (liftEff fun s => ((7 : Nat), s)) (((), fun _ => 0))).2.2 0 = 1 := by
  obtain ⟨h1, h2⟩ := all_fail_guard_traversal
    [constClause false 0, constClause false 5] (fun s => (7, s)) () rfl
  exact ⟨h1, (h2 0).trans (by decide)⟩

/-- C3: fallback when every guard fails.  When the default arm is present
the chain yields the default body's value, evaluated after the guards (the
spec's example `[false => 0], _ => 1` yields `1`: see the witness); when it
is absent the statement-form chain completes, yielding the unit value with
no effect beyond the guard evaluations themselves and no error. -/
theorem default_fallback {σ τ V : Type} (cs : List (Clause σ V))
    (dflt : Eff σ V) (s : σ) (cu : List (Clause τ Unit)) (su : τ)
    (h : allFail cs s = true) (hu : allFail cu su = true) :
    whenElse cs dflt s = dflt (runGuards cs s) ∧
    whenStmt cu su = ((), runGuards cu su) := by
  refine ⟨whenElse_allFail cs dflt s h, ?_⟩
  rw [whenStmt, whenElse_allFail cu (unitEff τ) su hu]
  rfl

/-- Witness for C3: `[false => 0]` with default `_ => 1` yields `1`, and the
default-less statement form with one failing pure clause completes yielding
the unit value with the state untouched. -/
theorem default_fallback_witness :
    whenElse [constClause false 0] (fun s => ((1 : Nat), s)) () = (1, ()) ∧
    whenStmt [Clause.boolean (fun s => (false, s)) (fun s => ((), s))] () =
      ((), ()) :=
  default_fallback [constClause false 0] (fun s => ((1 : Nat), s)) ()
    [Clause.boolean (fun s => (false, s)) (fun s => ((), s))] () rfl rfl

/-- C5: destructure binding scope.  On a match the clause's body — the sole
consumer of the extracted bindings `b`, by the very type of the clause —
is evaluated with those bindings; on a failed match the chain continues with
the rest of the chain `els`, a continuation that exists before any binding
does and receives only the post-guard state, so no binding leaks into
subsequent clauses or their bodies. -/
theorem destructure_binding_scope {σ V α β : Type} (target : Eff σ α)
    (pat : α → Option β) (body : β → Eff σ V) (els : Eff σ V) (s : σ) :
    (∀ b, pat (target s).1 = some b →
      (Clause.destructure α β target pat body).test els s =
        body b (target s).2) ∧
    (pat (target s).1 = none →
      (Clause.destructure α β target pat body).test els s =
        els (target s).2) := by
  constructor
  · intro b hb
    simp [Clause.test, hb]
  · intro hb
    simp [Clause.test, hb]

/-- Witness for C5 on the `pattern` test's clauses: `let Some(y) = Some(12)`
succeeds and its body sees `y = 12` (yielding `13`); `let Some(y) = None`
fails and the chain falls through to the rest (here yielding `0`). -/
theorem destructure_binding_scope_witness :
    (someClause (some 12) (fun y => y + 1)).test (fun s => ((0 : Nat), s)) ()
      = (13, ()) ∧
    (someClause none (fun y => y + 1)).test (fun s => ((0 : Nat), s)) ()
      = (0, ()) :=
  ⟨(destructure_binding_scope (fun s => (some 12, s)) (fun v => v)
      (fun b s => (b + 1, s)) (fun s => (0, s)) ()).1 12 rfl,
   (destructure_binding_scope (fun s => (none, s)) (fun v => v)
      (fun b s => (b + 1, s)) (fun s => (0, s)) ()).2 rfl⟩

/-- C4 counterexample: on the claim's concrete mixed list the chain yields
`13`, not `1` — the third clause's guard `let Some(y) = Some(12)` matches,
so the fourth clause does not win. -/
theorem mixed_kinds_counterexample :
    (whenElse mixedClauses (fun s => ((0 : Nat), s)) ()).1 = 13 ∧
    ¬(whenElse mixedClauses (fun s => ((0 : Nat), s)) ()).1 = 1 := by
  exact ⟨rfl, by decide⟩

/-- C4 amended: mixed guard kinds evaluate in pure textual order, and the
list `[false => 0, let Some(x) = None => x, let Some(y) = Some(12) => y + 1,
true => 1, _ => 0]` yields `13`, the third clause winning because its
destructure guard matches `Some(12)`: the instrumented counters show guards
1–3 evaluated once each, in order, and the fourth clause's guard never
evaluated. -/
theorem mixed_kinds_evaluation :
    (whenElse mixedClauses (fun s => ((0 : Nat), s)) ()).1 = 13 ∧
    mixedCounters 0 = 1 ∧ mixedCounters 1 = 1 ∧ mixedCounters 2 = 1 ∧
    mixedCounters 3 = 0 := by
  refine ⟨rfl, rfl, rfl, rfl, rfl⟩

/-! ### Parser lemmas -/

/-- The matcher accepts a rendered tail and recovers exactly the clauses and
default it was rendered from, with or without the trailing comma. -/
theorem parseTail_renderTail {σ V : Type} (cs : List (Clause σ V))
    (d : Option (Eff σ V)) (t : Bool) :
    parseTail (renderTail cs d t) = some ((cs, d)) := by
  induction cs with
  | nil => cases d <;> cases t <;> rfl
  | cons c cs ih =>
      show (parseTail (renderTail cs d t)).map (fun p => (c :: p.1, p.2)) = _
      rw [ih]
      rfl

/-- The matcher accepts a rendered nonempty invocation and recovers exactly
the clause list and default it shows, trailing comma or not. -/
theorem parseToks_render {σ V : Type} (c : Clause σ V)
    (cs : List (Clause σ V)) (d : Option (Eff σ V)) (t : Bool) :
    parseToks (render (c :: cs) d t) = some ⟨c :: cs, d⟩ := by
  show (parseTail (renderTail cs d t)).map
      (fun p => (⟨c :: p.1, p.2⟩ : Parsed σ V)) = _
  rw [parseTail_renderTail]
  rfl

/-- Any tail the matcher accepts has its default arm (if any) in the last
clause position: no clause or second default arm follows it. -/
theorem parseTail_defaultNotLast {σ V : Type} :
    ∀ (l : List (Tok σ V)) (p : List (Clause σ V) × Option (Eff σ V)),
      parseTail l = some p → defaultNotLast l = false
  | [], _, _ => rfl
  | [.comma], _, _ => rfl
  | [.comma, .defaultArm _], _, _ => rfl
  | [.comma, .defaultArm _, .comma], _, _ => rfl
  | .comma :: .defaultArm _ :: .comma :: _ :: _, _, h => nomatch h
  | .comma :: .defaultArm _ :: .clause _ :: _, _, h => nomatch h
  | .comma :: .defaultArm _ :: .defaultArm _ :: _, _, h => nomatch h
  | .comma :: .comma :: _, _, h => nomatch h
  | .clause _ :: _, _, h => nomatch h
  | .defaultArm _ :: _, _, h => nomatch h
  | .comma :: .clause c :: rest, p, h => by
      obtain ⟨p', hp', _⟩ := Option.map_eq_some'.mp h
      exact parseTail_defaultNotLast rest p' hp'

/-- C6: malformed input rejection.  Any invocation whose default arm is not
in the last clause position (a further clause or default arm follows it),
and any invocation with zero non-default clauses (with or without a default
arm), fails the matcher — a `SyntaxError` — and consequently every emission
path, which factors through the matcher, emits no code at all. -/
theorem malformed_input_rejected {σ V : Type} (toks : List (Tok σ V))
    (h : defaultNotLast toks = true ∨ ∀ t ∈ toks, t.isClause = false) :
    parseToks toks = none ∧
    ∀ (emit : Parsed σ V → Eff σ V), (parseToks toks).map emit = none := by
  have hnone : parseToks toks = none := by
    cases htoks : parseToks toks with
    | none => rfl
    | some p =>
        cases toks with
        | nil => exact nomatch htoks
        | cons t rest =>
            cases t with
            | comma => exact nomatch htoks
            | defaultArm d => exact nomatch htoks
            | clause c =>
                rcases h with h | h
                · obtain ⟨p', hp', _⟩ := Option.map_eq_some'.mp htoks
                  have hf := parseTail_defaultNotLast rest p' hp'
                  rw [show defaultNotLast (Tok.clause c :: rest)
                      = defaultNotLast rest from rfl, hf] at h
                  exact absurd h (by simp)
                · have hc := h (Tok.clause c) (List.mem_cons_self _ _)
                  simp [Tok.isClause] at hc
  exact ⟨hnone, fun emit => by rw [hnone]; rfl⟩

/-- Witness for C6: a default arm before a clause is rejected, and so is the
empty invocation. -/
theorem malformed_input_rejected_witness :
    parseToks [Tok.defaultArm (unitEff Unit), Tok.comma,
      Tok.clause (Clause.boolean (fun s => (true, s)) (unitEff Unit))] =
      none ∧
    parseToks ([] : List (Tok Unit Unit)) = none :=
  ⟨(malformed_input_rejected [Tok.defaultArm (unitEff Unit), Tok.comma,
      Tok.clause (Clause.boolean (fun s => (true, s)) (unitEff Unit))]
      (Or.inl rfl)).1,
   (malformed_input_rejected ([] : List (Tok Unit Unit))
      (Or.inr (by simp))).1⟩

/-- C9: trailing separator neutrality.  For every well-formed (nonempty)
clause list, with or without a default arm, the invocation with a trailing
comma after the last clause is accepted and parses to exactly the same
clause list and default as the invocation without it — no phantom clause —
so every emitter produces exactly the same conditional chain from both. -/
theorem trailing_comma_neutral {σ V : Type} (c : Clause σ V)
    (cs : List (Clause σ V)) (d : Option (Eff σ V)) :
    parseToks (render (c :: cs) d true) =
      parseToks (render (c :: cs) d false) ∧
    parseToks (render (c :: cs) d false) = some ⟨c :: cs, d⟩ ∧
    ∀ (emit : Parsed σ V → Eff σ V),
      (parseToks (render (c :: cs) d true)).map emit =
        (parseToks (render (c :: cs) d false)).map emit := by
  have h1 := parseToks_render c cs d true
  have h2 := parseToks_render c cs d false
  exact ⟨h1.trans h2.symm, h2, fun emit => by rw [h1, h2]⟩

/-- C8 counterexample: for the concrete default-less invocation
`when! { false => () }` the expansion does NOT produce an error at the point
of expansion: the matcher accepts it and the emitted chain silently
substitutes the unit value on the all-guards-failed path (here the sole
guard fails, and the chain yields `()`). -/
theorem no_default_expansion_counterexample :
    whenExpandStmt [Tok.clause (Clause.boolean (fun s => (false, s))
        (unitEff Unit))] =
      some (whenElse [Clause.boolean (fun s => (false, s)) (unitEff Unit)]
        (unitEff Unit)) ∧
    (whenExpandStmt [Tok.clause (Clause.boolean (fun s => (false, s))
        (unitEff Unit))]).map (fun e => (e ()).1) = some () :=
  ⟨rfl, rfl⟩

/-- C8 amended: omitting the default arm is not an expansion-time error.
The expansion succeeds and emits the chain with the empty block — the unit
value — as the innermost fallback, so the chain's value type is `Unit`;
where a value of any other type is required, the error is reported
downstream by the host's own type checker (the delegated `TypingError` of
the specification), not by the expander. -/
theorem no_default_unit_substitution {σ : Type} (c : Clause σ Unit)
    (cs : List (Clause σ Unit)) (t : Bool) (s : σ)
    (hf : allFail (c :: cs) s = true) :
    whenExpandStmt (render (c :: cs) none t) = some (whenStmt (c :: cs)) ∧
    whenStmt (c :: cs) s = ((), runGuards (c :: cs) s) := by
  constructor
  · rw [whenExpandStmt, parseToks_render]
    rfl
  · rw [whenStmt, whenElse_allFail _ _ _ hf]
    rfl

/-- Witness for C8's amended statement: the default-less invocation
`when! { false => () }` expands to its chain, which completes yielding the
unit value. -/
theorem no_default_unit_substitution_witness :
    whenExpandStmt (render [Clause.boolean (fun s => (false, s))
      (unitEff Unit)] none false) =
      some (whenStmt [Clause.boolean (fun s => (false, s)) (unitEff Unit)]) ∧
    whenStmt [Clause.boolean (fun s => (false, s)) (unitEff Unit)] () =
      ((), ()) :=
  no_default_unit_substitution
    (Clause.boolean (fun s => (false, s)) (unitEff Unit)) [] false () rfl

end Kiam
